import Mathlib

/-!
Verification of PRGuardian's diff-to-position indexer and finding translator
(`src/app.py`: `parse_diff_to_positions`, `map_ai_response_to_github_format`).

Python strings are embedded as `List Char`, Python dicts as insertion-ordered
association lists (assignment to an existing key keeps its place, a new key is
appended), Python exceptions as `Except String`.
-/

/-- Python `str` embedded as its character sequence. -/
abbrev Str := List Char

/-- Inner mapping of a file: new-file line number (Python `int`) to diff
position. -/
abbrev InnerMap := List (Int × Nat)

/-- The result of `parse_diff_to_positions`: file path to inner mapping. -/
abbrev PositionsMap := List (Str × InnerMap)

/-- Association-list lookup, mirroring Python `d[k]` / `k in d`. -/
def assocLookup {α β : Type} [DecidableEq α] : List (α × β) → α → Option β
  | [], _ => none
  | (a, b) :: rest, k => if a = k then some b else assocLookup rest k

/-- Association-list assignment `d[k] = v` with Python-dict semantics: an
existing key keeps its position in the list, a new key is appended. -/
def assocUpd {α β : Type} [DecidableEq α] (m : List (α × β)) (k : α) (v : β) :
    List (α × β) :=
  if (assocLookup m k).isSome then
    m.map (fun p => if p.1 = k then (k, v) else p)
  else m ++ [(k, v)]

/-- Python `str.split(sep)` for a one-character separator: empty chunks are
kept and the empty string yields one empty chunk. -/
def splitChar (sep : Char) : Str → List Str
  | [] => [[]]
  | c :: rest =>
    if c = sep then [] :: splitChar sep rest
    else
      match splitChar sep rest with
      | [] => [[c]]
      | l :: ls => (c :: l) :: ls

/-- Python `line.split(" b/")`: split on the three-character separator that
`parse_diff_to_positions` uses to extract the post-image path. -/
def splitOnBSlash : Str → List Str
  | ' ' :: 'b' :: '/' :: rest => [] :: splitOnBSlash rest
  | c :: rest =>
    (match splitOnBSlash rest with
     | [] => [[c]]
     | l :: ls => (c :: l) :: ls)
  | [] => [[]]

/-- Python `line.startswith(pre)`. -/
def pyStartswith (pre : String) (line : Str) : Bool :=
  List.isPrefixOf pre.data line

/-- Accumulator for `pyIntOfDigits`: consumes decimal digits, failing on the
first non-digit character. -/
def pyDigitsAux : Str → Nat → Option Nat
  | [], acc => some acc
  | c :: cs, acc =>
    if c.isDigit then pyDigitsAux cs (acc * 10 + (c.toNat - 48)) else none

/-- Value of a non-empty all-digit string; `none` otherwise. -/
def pyIntOfDigits : Str → Option Nat
  | [] => none
  | cs => pyDigitsAux cs 0

/-- Modelled after Python's `int()` builtin applied to a decimal string: an
optional sign followed by at least one digit succeeds, anything else raises
`ValueError` (Python's tolerance for surrounding whitespace and underscore
digit grouping is not needed by any input considered here). -/
def pyInt : Str → Except String Int
  | '-' :: rest =>
    match pyIntOfDigits rest with
    | some n => .ok (-(n : Int))
    | none => .error ("invalid literal for int")
  | '+' :: rest =>
    match pyIntOfDigits rest with
    | some n => .ok ((n : Int))
    | none => .error ("invalid literal for int")
  | cs =>
    match pyIntOfDigits cs with
    | some n => .ok ((n : Int))
    | none => .error ("invalid literal for int")

/-- Python `str.upper()` (ASCII, as used for severity tags). -/
def pyUpper (s : Str) : Str := s.map Char.toUpper

/-- One insertion event `positions_map[current_file][start_line] = diff_position`
performed by the parsing loop, with the ghost hunk-segment id current at that
moment and the diff line that triggered it. -/
structure RecordEv where
  file : Str
  key : Int
  pos : Nat
  hunkId : Nat
  line : Str
deriving DecidableEq

/-- The loop state of `parse_diff_to_positions`.  The first four fields are the
Python locals `positions_map`, `current_file`, `diff_position`, `start_line`.
`hunkId` and `trace` are ghost instrumentation for the proofs: `hunkId` counts
the segments between position-counter resets and `trace` records the insertion
events in order; they are write-only and never influence the four real
fields. -/
structure ParseState where
  positions_map : PositionsMap
  current_file : Option Str
  diff_position : Nat
  start_line : Int
  hunkId : Nat
  trace : List RecordEv
deriving DecidableEq

/-- `positions_map[current_file][start_line] = diff_position`: update the inner
mapping of the entry whose key is the current file.  (When `current_file` is
set it is always a key of the map — it was registered by the file-header
branch — so Python's subscript cannot fail here.) -/
def recordPos (m : PositionsMap) (f : Str) (k : Int) (v : Nat) : PositionsMap :=
  m.map (fun p => if p.1 = f then (p.1, assocUpd p.2 k v) else p)

/-- The `+X,Y` field of a hunk header as the code reads it:
`line.split(' ')[2].split(',')[0][1:]`. -/
def hunkField (line : Str) : Str :=
  ((splitChar ',' ((splitChar ' ' line).getD 2 [])).headD []).drop 1

/-- One iteration of the `for line in diff_text.split('\n')` loop of
`parse_diff_to_positions` (src/app.py lines 22-57), transliterated branch by
branch.  A Python exception (the `int()` call on a malformed hunk header) is
an `.error` result. -/
def parseStep (s : ParseState) (line : Str) : Except String ParseState :=
  if pyStartswith "diff --git" line then
    if (splitOnBSlash line).length = 2 then
      .ok { positions_map :=
              assocUpd s.positions_map ((splitOnBSlash line).getD 1 []) []
            current_file := some ((splitOnBSlash line).getD 1 [])
            diff_position := 0
            start_line := 0
            hunkId := s.hunkId + 1
            trace := s.trace }
    else
      .ok { s with diff_position := 0, start_line := 0, hunkId := s.hunkId + 1 }
  else if pyStartswith "@@" line then
    if 3 ≤ (splitChar ' ' line).length then
      match pyInt (hunkField line) with
      | .error e => .error e
      | .ok n =>
        .ok { s with
            start_line := n
            diff_position := 0
            hunkId := s.hunkId + 1 }
    else
      .ok { s with diff_position := 0, hunkId := s.hunkId + 1 }
  else
    match s.current_file with
    | none => .ok s
    | some f =>
      if pyStartswith "+" line || pyStartswith "-" line ||
          pyStartswith " " line then
        if pyStartswith "+" line || pyStartswith " " line then
          .ok { s with
                diff_position := s.diff_position + 1
                positions_map :=
                  recordPos s.positions_map f s.start_line
                    (s.diff_position + 1)
                start_line := s.start_line + 1
                trace := s.trace ++
                  [⟨f, s.start_line, s.diff_position + 1, s.hunkId, line⟩] }
        else
          .ok { s with diff_position := s.diff_position + 1 }
      else .ok s

/-- The loop of `parse_diff_to_positions` over a list of diff lines. -/
def parseLinesM : List Str → ParseState → Except String ParseState
  | [], s => .ok s
  | l :: ls, s =>
    match parseStep s l with
    | .error e => .error e
    | .ok s' => parseLinesM ls s'

/-- The initial loop state of `parse_diff_to_positions`. -/
def initState : ParseState := ⟨[], none, 0, 0, 0, []⟩

/-- Run the whole parsing loop and return the final state. -/
def parseFull (diff_text : String) : Except String ParseState :=
  parseLinesM (splitChar '\n' diff_text.data) initState

/-- `parse_diff_to_positions(diff_text)` from src/app.py: the per-file map
from new-file line number to diff position, or the Python exception the loop
raised. -/
def parse_diff_to_positions (diff_text : String) : Except String PositionsMap :=
  match parseFull diff_text with
  | .error e => .error e
  | .ok s => .ok s.positions_map

/-- The index a normal run produces (`[]` when the parser raised). -/
def diffIndex (d : String) : PositionsMap :=
  match parse_diff_to_positions d with
  | .ok m => m
  | .error _ => []

/-- The ordered insertion events of a run (`[]` when the parser raised). -/
def traceOf (d : String) : List RecordEv :=
  match parseFull d with
  | .ok s => s.trace
  | .error _ => []

/-- The diff positions assigned to file `f`'s recorded lines, in diff order. -/
def filePosSeq (d : String) (f : Str) : List Nat :=
  ((traceOf d).filter (fun e => decide (e.file = f))).map (fun e => e.pos)

/-- The diff positions assigned to file `f`'s recorded lines within the
counter-reset segment (hunk) numbered `h`, in diff order. -/
def hunkPosSeq (d : String) (f : Str) (h : Nat) : List Nat :=
  ((traceOf d).filter (fun e => decide (e.file = f ∧ e.hunkId = h))).map
    (fun e => e.pos)

/-- A finding from the AI response, a JSON object whose four fields may each
be absent (`issue.get(...)` then yields the default). -/
structure Finding where
  file_path : Option Str
  line_number : Option Int
  severity : Option Str
  comment : Option Str
deriving DecidableEq

/-- A GitHub review comment record `{"path": .., "position": .., "body": ..}`. -/
structure CommentRecord where
  path : Str
  position : Nat
  body : Str
deriving DecidableEq

/-- The body of one iteration of `map_ai_response_to_github_format`'s loop
(src/app.py lines 80-108): `none` when the finding is skipped, otherwise the
comment record appended for it.  An absent `file_path` or `line_number`
(Python `None`) is never a key of the string-keyed / int-keyed mappings, so it
falls into the corresponding skip branch. -/
def translateOne (m : PositionsMap) (issue : Finding) : Option CommentRecord :=
  let severity := pyUpper (issue.severity.getD ("info").data)
  let comment := issue.comment.getD []
  match issue.file_path with
  | none => none
  | some fp =>
    match assocLookup m fp with
    | none => none
    | some inner =>
      match issue.line_number with
      | none => none
      | some ln =>
        match assocLookup inner ln with
        | none => none
        | some position =>
          some ⟨fp, position,
            ("**[").data ++ severity ++ ("]** ").data ++ comment⟩

/-- `map_ai_response_to_github_format(ai_response_json, diff_positions_map)`
from src/app.py: the loop appends one record per non-skipped finding to
`github_comments`. -/
def map_ai_response_to_github_format (ai_response_json : List Finding)
    (diff_positions_map : PositionsMap) : List CommentRecord :=
  ai_response_json.foldl
    (fun acc issue =>
      match translateOne diff_positions_map issue with
      | none => acc
      | some c => acc ++ [c]) []

/-- Modelled from the spec (§4.2): a finding survives iff its `file_path` is a
key of the index and its `line_number` is a key of that file's inner
mapping. -/
def survives (m : PositionsMap) (f : Finding) : Bool :=
  match f.file_path with
  | none => false
  | some fp =>
    match assocLookup m fp with
    | none => false
    | some inner =>
      match f.line_number with
      | none => false
      | some ln => (assocLookup inner ln).isSome

/-- Modelled from the spec (§4.2): the comment record for a surviving finding,
`position = index[file_path][line_number]`, `path = file_path`, body a bold
upper-cased severity tag followed by the comment text. -/
def specRecord (m : PositionsMap) (f : Finding) : CommentRecord :=
  let fp := f.file_path.getD []
  let inner := (assocLookup m fp).getD []
  let pos := (assocLookup inner (f.line_number.getD 0)).getD 0
  let sev := pyUpper (f.severity.getD ("info").data)
  ⟨fp, pos, ("**[").data ++ sev ++ ("]** ").data ++ (f.comment.getD [])⟩

/-- Relation between two insertion events: the later one lives in a later
counter-reset segment, or in the same segment at a strictly larger
position. -/
def EvR (a b : RecordEv) : Prop :=
  a.hunkId < b.hunkId ∨ (a.hunkId = b.hunkId ∧ a.pos < b.pos)

/-- Loop invariant tying the event trace to the current segment id `h` and
position counter `dp`: the trace is `EvR`-sorted and every event of the
current segment has position at most `dp`. -/
def trInv (tr : List RecordEv) (h dp : Nat) : Prop :=
  List.Pairwise EvR tr ∧
    ∀ e ∈ tr, e.hunkId < h ∨ (e.hunkId = h ∧ e.pos ≤ dp)

/-- Scenario 1's diff (spec §8): one file, one hunk, three context lines, one
deletion, one addition, three more context lines around a second addition. -/
def s1diff : String :=
  ("diff --git a/src/config.py b/src/config.py\n@@ -5,10 +5,11 @@\n # Configuration file\n MAX_RETRIES = 3\n TIMEOUT = 30\n-DEBUG = True\n+DEBUG = False\n \n def load_config():\n+    print(\"Loading config...\")\n return \x7b...\x7d")

/-- A diff whose hunk header carries an unparsable `+start` field (`+x,1`). -/
def c1badDiff : String :=
  ("diff --git a/f.py b/f.py\n@@ -1,1 +x,1 @@\n+a")

/-- A diff with one file and two hunks, each adding one line. -/
def c2twoHunks : String :=
  ("diff --git a/a.py b/a.py\n@@ -1,1 +1,1 @@\n+x\n@@ -5,1 +5,1 @@\n+y")

/-- A diff consisting of the `diff --git` header and the standard `---`/`+++`
file-metadata lines that every real git diff carries (compare the sample
diffs in src/src/test_vj_mapping.py and src/src/integration.py), with no hunk
at all. -/
def c3headerDiff : String :=
  ("diff --git a/f.py b/f.py\n--- a/f.py\n+++ b/f.py")

theorem translateOne_eq (m : PositionsMap) (f : Finding) :
    translateOne m f =
      if survives m f then some (specRecord m f) else none := by
  unfold translateOne survives specRecord
  cases hfp : f.file_path with
  | none => simp
  | some fp =>
    cases hin : assocLookup m fp with
    | none => simp [hin]
    | some inner =>
      cases hln : f.line_number with
      | none => simp [hin, hln]
      | some ln =>
        cases hpos : assocLookup inner ln with
        | none => simp [hin, hln, hpos]
        | some p => simp [hin, hln, hpos]

theorem mapAi_foldl_aux (m : PositionsMap) (fs : List Finding) :
    ∀ acc : List CommentRecord,
      fs.foldl
        (fun acc issue =>
          match translateOne m issue with
          | none => acc
          | some c => acc ++ [c]) acc
      = acc ++ fs.filterMap (translateOne m) := by
  induction fs with
  | nil => intro acc; simp
  | cons f fs ih =>
    intro acc
    simp only [List.foldl_cons, List.filterMap_cons]
    cases h : translateOne m f with
    | none => simp [h, ih]
    | some c => simp [h, ih (acc ++ [c])]

theorem mapAi_eq_filterMap (m : PositionsMap) (fs : List Finding) :
    map_ai_response_to_github_format fs m = fs.filterMap (translateOne m) := by
  unfold map_ai_response_to_github_format
  simpa using mapAi_foldl_aux m fs []

theorem translateOne_empty (f : Finding) : translateOne [] f = none := by
  unfold translateOne
  cases f.file_path with
  | none => rfl
  | some fp => rfl

theorem trInv_bump {tr : List RecordEv} {h dp : Nat} (hi : trInv tr h dp) :
    trInv tr (h + 1) 0 := by
  refine ⟨hi.1, fun e he => Or.inl ?_⟩
  rcases hi.2 e he with h' | ⟨h', _⟩ <;> omega

theorem trInv_incr {tr : List RecordEv} {h dp : Nat} (hi : trInv tr h dp) :
    trInv tr h (dp + 1) := by
  refine ⟨hi.1, fun e he => ?_⟩
  rcases hi.2 e he with h' | ⟨h1, h2⟩
  · exact Or.inl h'
  · exact Or.inr ⟨h1, by omega⟩

theorem trInv_push {tr : List RecordEv} {h dp : Nat} (f : Str) (k : Int)
    (line : Str) (hi : trInv tr h dp) :
    trInv (tr ++ [⟨f, k, dp + 1, h, line⟩]) h (dp + 1) := by
  constructor
  · rw [List.pairwise_append]
    refine ⟨hi.1, List.pairwise_singleton _ _, ?_⟩
    intro a ha b hb
    simp only [List.mem_singleton] at hb
    subst hb
    rcases hi.2 a ha with h' | ⟨h1, h2⟩
    · exact Or.inl h'
    · exact Or.inr ⟨h1, by simp; omega⟩
  · intro e he
    rcases List.mem_append.mp he with he | he
    · rcases hi.2 e he with h' | ⟨h1, h2⟩
      · exact Or.inl h'
      · exact Or.inr ⟨h1, by omega⟩
    · simp only [List.mem_singleton] at he
      subst he
      exact Or.inr ⟨rfl, le_refl _⟩

theorem stepInv {s s' : ParseState} {line : Str}
    (hstep : parseStep s line = .ok s')
    (hi : trInv s.trace s.hunkId s.diff_position) :
    trInv s'.trace s'.hunkId s'.diff_position := by
  unfold parseStep at hstep
  split at hstep
  · split at hstep
    · injection hstep with h; subst h; exact trInv_bump hi
    · injection hstep with h; subst h; exact trInv_bump hi
  · split at hstep
    · split at hstep
      · split at hstep
        · exact absurd hstep (by simp)
        · injection hstep with h; subst h; exact trInv_bump hi
      · injection hstep with h; subst h; exact trInv_bump hi
    · split at hstep
      · injection hstep with h; subst h; exact hi
      · split at hstep
        · split at hstep
          · injection hstep with h; subst h
            exact trInv_push _ _ _ hi
          · injection hstep with h; subst h; exact trInv_incr hi
        · injection hstep with h; subst h; exact hi

theorem linesInv :
    ∀ (lines : List Str) (s s' : ParseState),
      parseLinesM lines s = .ok s' →
      trInv s.trace s.hunkId s.diff_position →
      trInv s'.trace s'.hunkId s'.diff_position := by
  intro lines
  induction lines with
  | nil =>
    intro s s' h hi
    unfold parseLinesM at h
    injection h with h; subst h; exact hi
  | cons l ls ih =>
    intro s s' h hi
    unfold parseLinesM at h
    cases hs : parseStep s l with
    | error e => rw [hs] at h; exact absurd h (by simp)
    | ok s1 => rw [hs] at h; exact ih s1 s' h (stepInv hs hi)

theorem stepError {s : ParseState} {line : Str} {e : String}
    (hstep : parseStep s line = .error e) :
    pyStartswith "@@" line = true ∧ 3 ≤ (splitChar ' ' line).length ∧
      pyInt (hunkField line) = .error e := by
  unfold parseStep at hstep
  split at hstep
  · split at hstep <;> exact absurd hstep (by simp)
  · split at hstep
    · rename_i h2
      split at hstep
      · rename_i h3
        split at hstep
        · rename_i e' hpi
          injection hstep with h; subst h
          exact ⟨h2, h3, hpi⟩
        · exact absurd hstep (by simp)
      · exact absurd hstep (by simp)
    · split at hstep
      · exact absurd hstep (by simp)
      · split at hstep
        · split at hstep <;> exact absurd hstep (by simp)
        · exact absurd hstep (by simp)

theorem linesError :
    ∀ (lines : List Str) (s : ParseState) (e : String),
      parseLinesM lines s = .error e →
      ∃ line ∈ lines, pyStartswith "@@" line = true ∧
        3 ≤ (splitChar ' ' line).length ∧
        pyInt (hunkField line) = .error e := by
  intro lines
  induction lines with
  | nil => intro s e h; exact absurd h (by simp [parseLinesM])
  | cons l ls ih =>
    intro s e h
    unfold parseLinesM at h
    cases hs : parseStep s l with
    | error e' =>
      rw [hs] at h
      injection h with h'; subst h'
      exact ⟨l, by simp, stepError hs⟩
    | ok s1 =>
      rw [hs] at h
      obtain ⟨line, hmem, hprop⟩ := ih s1 e h
      exact ⟨line, by simp [hmem], hprop⟩

/-- C1 (amended): the only way `parse_diff_to_positions` fails to return
normally is a `ValueError` from `int()` on a hunk-header line with at least
three space-separated fields whose parsed `+start` field is not an integer;
and a hunk header with fewer than three fields does not raise, leaves
`start_line` (next_new_line) at its prior value, but resets `diff_position`
(position_counter) to 0 rather than leaving it at its prior value. -/
theorem c1_errors_only_from_hunk_header_int :
    (∀ (d : String) (e : String), parse_diff_to_positions d = .error e →
      ∃ line ∈ splitChar '\n' d.data, pyStartswith "@@" line = true ∧
        3 ≤ (splitChar ' ' line).length ∧
        pyInt (hunkField line) = .error e) ∧
    (∀ (s : ParseState) (line : Str),
      pyStartswith "diff --git" line = false →
      pyStartswith "@@" line = true →
      (splitChar ' ' line).length < 3 →
      parseStep s line = .ok { s with diff_position := 0
                                      hunkId := s.hunkId + 1 }) := by
  constructor
  · intro d e h
    unfold parse_diff_to_positions parseFull at h
    cases hp : parseLinesM (splitChar '\n' d.data) initState with
    | error e' =>
      rw [hp] at h
      injection h with h'; subst h'
      exact linesError _ _ _ hp
    | ok st => rw [hp] at h; exact absurd h (by simp)
  · intro s line h1 h2 h3
    unfold parseStep
    rw [h1]
    simp only [Bool.false_eq_true, if_false, h2, if_true]
    rw [if_neg (by omega)]

/-- C1 counterexample: on the diff whose hunk header reads `@@ -1,1 +x,1 @@`
the parser raises `ValueError` instead of returning normally; and on a short
hunk-header line the position counter is reset to 0, not left at its prior
value 5 (while `start_line` does keep its prior value 7). -/
theorem c1_counterexample :
    parse_diff_to_positions c1badDiff = .error ("invalid literal for int") ∧
    parseStep ⟨[], none, 5, 7, 0, []⟩ (("@@").data) =
      .ok ⟨[], none, 0, 7, 1, []⟩ := by
  exact ⟨rfl, rfl⟩

/-- C1 witness: the amended theorem applied to the concrete failing diff and
to the concrete short hunk-header line. -/
theorem c1_errors_only_from_hunk_header_int_witness :
    (parse_diff_to_positions c1badDiff = .error ("invalid literal for int") ∧
      ∃ line ∈ splitChar '\n' c1badDiff.data,
        pyStartswith "@@" line = true ∧
        3 ≤ (splitChar ' ' line).length ∧
        pyInt (hunkField line) = .error ("invalid literal for int")) ∧
    (pyStartswith "diff --git" (("@@").data) = false ∧
      pyStartswith "@@" (("@@").data) = true ∧
      (splitChar ' ' (("@@").data)).length < 3 ∧
      parseStep ⟨[], none, 5, 7, 0, []⟩ (("@@").data) =
        .ok ⟨[], none, 0, 7, 1, []⟩) := by
  refine ⟨⟨rfl, c1_errors_only_from_hunk_header_int.1 c1badDiff _ rfl⟩,
          rfl, rfl, by decide,
          c1_errors_only_from_hunk_header_int.2
            ⟨[], none, 5, 7, 0, []⟩ (("@@").data) rfl rfl (by decide)⟩

/-- C2 (amended): for every diff text, file and counter-reset segment (hunk),
the diff positions recorded for that file within that one segment, taken in
diff order, are strictly increasing; the counter resets to 0 at every hunk
header and file header, so positions are hunk-relative rather than numbered
continuously across a file's hunks. -/
theorem c2_positions_strictly_increase_within_hunk (d : String) (f : Str)
    (h : Nat) : List.Pairwise (· < ·) (hunkPosSeq d f h) := by
  unfold hunkPosSeq traceOf
  cases hp : parseFull d with
  | error e => simp
  | ok st =>
    have hinv : trInv st.trace st.hunkId st.diff_position :=
      linesInv _ _ _ hp ⟨List.Pairwise.nil, by simp [initState]⟩
    have pf : List.Pairwise EvR
        (st.trace.filter (fun e => decide (e.file = f ∧ e.hunkId = h))) :=
      hinv.1.sublist (List.filter_sublist _)
    rw [List.pairwise_map]
    refine pf.imp_of_mem ?_
    intro a b ha hb hab
    have ha' := (List.mem_filter.mp ha).2
    have hb' := (List.mem_filter.mp hb).2
    simp only [decide_eq_true_eq] at ha' hb'
    obtain ⟨-, ha2⟩ := ha'
    obtain ⟨-, hb2⟩ := hb'
    rcases hab with hlt | ⟨heq, hpos⟩
    · omega
    · exact hpos

/-- C2 counterexample: on a diff with one file and two hunks, each adding one
line, the positions assigned to the file's recorded lines in diff order are
`[1, 1]` — the counter reset at the second hunk header, so the whole-file
sequence is neither strictly increasing nor numbered continuously across
hunks. -/
theorem c2_counterexample :
    filePosSeq c2twoHunks (("a.py").data) = [1, 1] ∧
    ¬ List.Pairwise (· < ·) (filePosSeq c2twoHunks (("a.py").data)) := by
  refine ⟨rfl, ?_⟩
  have h0 : filePosSeq c2twoHunks (("a.py").data) = [1, 1] := rfl
  rw [h0]
  decide

/-- C3: evaluating the parser on a diff consisting only of the `diff --git`
header and the standard `---`/`+++` file-metadata lines shows that the
`+++ b/f.py` metadata line — not an added or context hunk line, and prefixed
`+` only because it is the new-file marker — contributes the key 0 at
position 2 to the file's inner mapping, and the trace confirms that entry was
recorded while processing exactly that line. -/
theorem c3_metadata_line_contributes_key :
    parse_diff_to_positions c3headerDiff = .ok [(("f.py").data, [(0, 2)])] ∧
    traceOf c3headerDiff =
      [⟨("f.py").data, 0, 2, 1, ("+++ b/f.py").data⟩] := by
  exact ⟨rfl, rfl⟩

/-- C4: Scenario 1's diff produces, for `src/config.py`, exactly the pairs
5→1, 6→2, 7→3, 8→5, 9→6, 10→7, 11→8, 12→9 (the deleted `DEBUG = True` line
consumed position 4 without creating a key). -/
theorem c4_scenario1_index :
    parse_diff_to_positions s1diff =
      .ok [(("src/config.py").data,
        [(5, 1), (6, 2), (7, 3), (8, 5), (9, 6), (10, 7), (11, 8),
         (12, 9)])] := by
  exact rfl

/-- C5: the finding (src/config.py, line 8, error, "x") translated against
Scenario 1's index yields exactly the comment record with path
src/config.py, position 5, and body `**[ERROR]** x`. -/
theorem c5_scenario2_comment :
    map_ai_response_to_github_format
      [⟨some (("src/config.py").data), some 8, some (("error").data),
        some (("x").data)⟩]
      (diffIndex s1diff)
      = [⟨("src/config.py").data, 5, ("**[ERROR]** x").data⟩] := by
  exact rfl

/-- C6: the translator is a total function of its inputs (no raise in the
embedding) and its output never has more records than the input has
findings. -/
theorem c6_translate_total_length_le (fs : List Finding) (m : PositionsMap) :
    (map_ai_response_to_github_format fs m).length ≤ fs.length := by
  rw [mapAi_eq_filterMap]
  exact List.length_filterMap_le _ _

/-- C7: the translator's output is exactly one comment record per surviving
finding, in the input's relative order — it equals the map of the spec's
record constructor over the sublist of findings that survive the spec's skip
policy, so duplicates at the same line are preserved, not deduplicated. -/
theorem c7_translate_order_preserving (fs : List Finding) (m : PositionsMap) :
    map_ai_response_to_github_format fs m
      = (fs.filter (survives m)).map (specRecord m) := by
  rw [mapAi_eq_filterMap]
  induction fs with
  | nil => rfl
  | cons f fs ih =>
    simp only [List.filterMap_cons, List.filter_cons, translateOne_eq]
    cases h : survives m f with
    | false => simpa [h] using ih
    | true => simpa [h] using ih

/-- C8: `parse_diff_to_positions` is deterministic — it is a pure function of
its input, with no process-wide state read or written (the embedding of the
source loop threads all of its state explicitly), so two calls on the same
diff text yield identical results. -/
theorem c8_deterministic (d : String) :
    parse_diff_to_positions d = parse_diff_to_positions d := rfl

/-- C9: the empty diff text parses to the empty index, and translating any
non-empty findings list against an empty index yields the empty output
list. -/
theorem c9_empty_diff_empty_output :
    parse_diff_to_positions ("") = .ok [] ∧
    ∀ fs : List Finding, fs ≠ [] →
      map_ai_response_to_github_format fs [] = [] := by
  refine ⟨rfl, fun fs _ => ?_⟩
  rw [mapAi_eq_filterMap]
  simp [List.filterMap_eq_nil_iff, translateOne_empty]

/-- C9 witness: the theorem applied to a concrete one-element findings
list. -/
theorem c9_empty_diff_empty_output_witness :
    parse_diff_to_positions ("") = .ok [] ∧
    ([(⟨none, none, none, none⟩ : Finding)] ≠ []) ∧
    map_ai_response_to_github_format [⟨none, none, none, none⟩] [] = [] := by
  exact ⟨c9_empty_diff_empty_output.1, by simp,
    c9_empty_diff_empty_output.2 [⟨none, none, none, none⟩] (by simp)⟩

/-- C10: a finding whose file and line are in the index is not skipped even
with both optional fields absent: the severity defaults to info (upper-cased
to the tag `**[INFO]**`) and the comment defaults to empty, so the body is
the bold severity tag followed by a single space. -/
theorem c10_missing_fields_default (m : PositionsMap) (fp : Str) (ln : Int)
    (inner : InnerMap) (pos : Nat)
    (hin : assocLookup m fp = some inner)
    (hpos : assocLookup inner ln = some pos) :
    map_ai_response_to_github_format [⟨some fp, some ln, none, none⟩] m
      = [⟨fp, pos, ("**[INFO]** ").data⟩] := by
  rw [mapAi_eq_filterMap]
  simp [List.filterMap_cons, translateOne, hin, hpos, pyUpper]

/-- C10 witness: the theorem applied to a concrete one-entry index. -/
theorem c10_missing_fields_default_witness :
    assocLookup [((("a").data : Str), ([(1, 7)] : InnerMap))] (("a").data) =
      some [(1, 7)] ∧
    assocLookup ([(1, 7)] : InnerMap) 1 = some 7 ∧
    map_ai_response_to_github_format
      [⟨some (("a").data), some 1, none, none⟩]
      [((("a").data : Str), ([(1, 7)] : InnerMap))]
      = [⟨("a").data, 7, ("**[INFO]** ").data⟩] := by
  exact ⟨rfl, rfl,
    c10_missing_fields_default _ _ _ _ _ rfl rfl⟩
